import Mathlib

/-!
Verification development for the BMS telemetry pipeline.

This file gives a shallow Lean embedding of the pipeline's core data model and
algorithms (app/inc/batch_structures.hpp, batch_pool.hpp, safe_queue.hpp,
influxdb.hpp, src/influxdb.cpp, services/spsc_ring_service.hpp,
services/mpsc_ring_service.hpp, voltage.hpp) and proves the specified
properties about them.

Modelling conventions:
- 16-bit / 32-bit machine integers are Nat with explicit reductions mod 2^w
  where the C++ types would truncate.
- IEEE-754 binary32 values are carried as their 32-bit pattern (a Nat).  The
  exact real value of a finite pattern is recovered on the integer scale
  value * 2^149, which is always an integer for finite binary32 values; IEEE
  comparison of finite floats coincides with comparison of these integers.
- std::chrono::system_clock::time_point is an Int counting nanoseconds since
  the Unix epoch; the wall clock read by is_timestamp_reasonable is passed in
  as an explicit parameter.
-/

-- ===========================================================================
-- IEEE-754 binary32 model (bit patterns as Nat)
-- ===========================================================================

/-- Sign bit of a binary32 pattern. -/
def f32_sign (b : Nat) : Nat := b % 2 ^ 32 / 2 ^ 31

/-- Biased exponent field (8 bits) of a binary32 pattern. -/
def f32_expo (b : Nat) : Nat := b % 2 ^ 31 / 2 ^ 23

/-- Fraction field (23 bits) of a binary32 pattern. -/
def f32_frac (b : Nat) : Nat := b % 2 ^ 23

/-- std::isfinite on a binary32 pattern: the exponent field is not all ones. -/
def f32_isfinite (b : Nat) : Bool := f32_expo b ≠ 255

/-- Exact value of a finite binary32 pattern, on the scale value * 2^149.
For a subnormal (exponent field 0) the value is sign * frac * 2^(-149); for a
normal it is sign * (2^23 + frac) * 2^(expo - 150).  Both are integers after
multiplication by 2^149.  Meaningless for infinities/NaNs, which the code
filters out with f32_isfinite before ever comparing. -/
def f32_val149 (b : Nat) : Int :=
  let mag : Nat :=
    if f32_expo b = 0 then f32_frac b
    else (2 ^ 23 + f32_frac b) * 2 ^ (f32_expo b - 1)
  if f32_sign b = 1 then -(mag : Int) else (mag : Int)

/-- IEEE `<` on finite binary32 patterns (exact, via the 2^149 scale). -/
def f32_lt (a b : Nat) : Bool := f32_val149 a < f32_val149 b

-- ===========================================================================
-- batch_structures.hpp : data model
-- ===========================================================================

/-- MODBUS register block length (kRegisterBlockCount). -/
def kRegisterBlockCount : Nat := 35

/-- Voltage/temperature channel count (kChannelCount). -/
def kChannelCount : Nat := 16

/-- Reference epoch 2000-01-01T00:00:00Z in Unix seconds (kUnixEpoch2000). -/
def kUnixEpoch2000 : Nat := 946684800

/-- SampleFlags bit values (enum class SampleFlags), as a Nat bitmask. -/
def flagCommError : Nat := 1
/-- TimestampInvalid bit (1 <<< 1). -/
def flagTimestampInvalid : Nat := 2
/-- DecodeError bit (1 <<< 2). -/
def flagDecodeError : Nat := 4
/-- RangeError bit (1 <<< 3). -/
def flagRangeError : Nat := 8

/-- DeviceTimestamp of batch_structures.hpp; `timestamp` is the
system_clock::time_point in nanoseconds since the Unix epoch. -/
structure DeviceTimestamp where
  device_epoch : Nat
  subseconds_ms : Nat
  timestamp : Int
  valid : Bool
deriving Repr, DecidableEq

/-- VoltageBatch.  The declared C++ struct (batch_structures.hpp lines 72-78)
has members ts, voltages, seq, flags only; the `device_id` member is the one
the producer (voltage.hpp line 144) assigns and the line formatter
(influxdb.hpp line 307) reads but which is missing from the declaration — a
latent defect in the source noted in the specification.  The model includes
the field, since every consumer of the type requires it. -/
structure VoltageBatch where
  ts : DeviceTimestamp
  voltages : Fin 16 → Nat
  seq : Nat
  flags : Nat
  device_id : Nat

/-- TemperatureBatch (no device identifier, matching the source). -/
structure TemperatureBatch where
  ts : DeviceTimestamp
  temperatures : Fin 16 → Nat
  seq : Nat
  flags : Nat

/-- Member names of struct VoltageBatch exactly as declared in
batch_structures.hpp lines 72-78. -/
def voltage_batch_declared_members : List String :=
  ["ts", "voltages", "seq", "flags"]

/-- Batch members assigned by VoltageAcquisition::read_and_publish_ before the
MODBUS read (voltage.hpp lines 141-144). -/
def voltage_producer_assigned_members : List String :=
  ["flags", "ts.valid", "seq", "device_id"]

/-- Batch members read by InfluxDBTask::append_voltage_line_
(influxdb.hpp lines 303-330). -/
def voltage_formatter_read_members : List String :=
  ["ts.timestamp", "device_id", "voltages"]

/-- device_epoch_to_timepoint: reference instant 2000-01-01T00:00:00Z plus
device_epoch seconds plus subseconds_ms milliseconds, in nanoseconds. -/
def device_epoch_to_timepoint (device_epoch_seconds subseconds_ms : Nat) : Int :=
  (kUnixEpoch2000 : Int) * 1000000000
    + (device_epoch_seconds : Int) * 1000000000
    + (subseconds_ms : Int) * 1000000

/-- modbus_registers_to_float: concatenate the high word into the upper and the
low word into the lower 16 bits of a 32-bit pattern (the reinterpretation as a
float is the identity here, since the model carries bit patterns).  The uint16
parameter types are reflected by the mod 2^16 reductions. -/
def modbus_registers_to_float (high_word low_word : Nat) : Nat :=
  ((high_word % 2 ^ 16) <<< 16) ||| (low_word % 2 ^ 16)

/-- populate_voltage_batch over the 35-register block. -/
def populate_voltage_batch (batch : VoltageBatch) (regs : Fin 35 → Nat) :
    VoltageBatch :=
  let epoch : Nat := ((regs 0 % 2 ^ 16) <<< 16) ||| (regs 1 % 2 ^ 16)
  let subsec : Nat := regs 2 % 2 ^ 16
  { batch with
    ts :=
      { device_epoch := epoch
        subseconds_ms := subsec
        timestamp := device_epoch_to_timepoint epoch subsec
        valid := true }
    voltages := fun i =>
      modbus_registers_to_float (regs ⟨3 + 2 * i.val, by omega⟩)
        (regs ⟨3 + 2 * i.val + 1, by omega⟩) }

/-- populate_temperature_batch over the 35-register block. -/
def populate_temperature_batch (batch : TemperatureBatch) (regs : Fin 35 → Nat) :
    TemperatureBatch :=
  let epoch : Nat := ((regs 0 % 2 ^ 16) <<< 16) ||| (regs 1 % 2 ^ 16)
  let subsec : Nat := regs 2 % 2 ^ 16
  { batch with
    ts :=
      { device_epoch := epoch
        subseconds_ms := subsec
        timestamp := device_epoch_to_timepoint epoch subsec
        valid := true }
    temperatures := fun i =>
      modbus_registers_to_float (regs ⟨3 + 2 * i.val, by omega⟩)
        (regs ⟨3 + 2 * i.val + 1, by omega⟩) }

/-- is_timestamp_reasonable: the absolute difference between the wall clock
`now` and `tp` (both nanoseconds), truncated to whole hours, is strictly less
than 8760 hours (24 * 365). -/
def is_timestamp_reasonable (now tp : Int) : Bool :=
  let diff : Int := if tp < now then now - tp else tp - now
  diff.toNat / (3600 * 1000000000) < 24 * 365

/-- Bit pattern of the float literal 2.0f (min_voltage). -/
def volt_min_bits : Nat := 0x40000000
/-- Bit pattern of the float literal 4.5f (max_voltage). -/
def volt_max_bits : Nat := 0x40900000
/-- Bit pattern of the float literal -50.0f (min_temp). -/
def temp_min_bits : Nat := 0xC2480000
/-- Bit pattern of the float literal 100.0f (max_temp). -/
def temp_max_bits : Nat := 0x42C80000

/-- validate_voltage_batch, with the wall clock passed explicitly. -/
def validate_voltage_batch (now : Int) (batch : VoltageBatch) : Nat :=
  if batch.flags ≠ 0 then batch.flags
  else
    let result : Nat :=
      if !batch.ts.valid || !is_timestamp_reasonable now batch.ts.timestamp
      then 0 ||| flagTimestampInvalid else 0
    (List.finRange 16).foldl
      (fun acc i =>
        let v := batch.voltages i
        if !f32_isfinite v then acc ||| flagDecodeError
        else if f32_lt v volt_min_bits || f32_lt volt_max_bits v then
          acc ||| flagRangeError
        else acc)
      result

/-- validate_temperature_batch, with the wall clock passed explicitly. -/
def validate_temperature_batch (now : Int) (batch : TemperatureBatch) : Nat :=
  if batch.flags ≠ 0 then batch.flags
  else
    let result : Nat :=
      if !batch.ts.valid || !is_timestamp_reasonable now batch.ts.timestamp
      then 0 ||| flagTimestampInvalid else 0
    (List.finRange 16).foldl
      (fun acc i =>
        let t := batch.temperatures i
        if !f32_isfinite t then acc ||| flagDecodeError
        else if f32_lt t temp_min_bits || f32_lt temp_max_bits t then
          acc ||| flagRangeError
        else acc)
      result

-- ===========================================================================
-- Helper lemmas: per-channel flag contribution and bitmask folds
-- ===========================================================================

/-- Flag contribution of one voltage channel value in validate_voltage_batch. -/
def volt_channel_flag (v : Nat) : Nat :=
  if !f32_isfinite v then flagDecodeError
  else if f32_lt v volt_min_bits || f32_lt volt_max_bits v then flagRangeError
  else 0

/-- Flag contribution of one temperature channel value. -/
def temp_channel_flag (t : Nat) : Nat :=
  if !f32_isfinite t then flagDecodeError
  else if f32_lt t temp_min_bits || f32_lt temp_max_bits t then flagRangeError
  else 0

theorem volt_step_eq (acc v : Nat) :
    (if !f32_isfinite v then acc ||| flagDecodeError
     else if f32_lt v volt_min_bits || f32_lt volt_max_bits v then
       acc ||| flagRangeError
     else acc) = acc ||| volt_channel_flag v := by
  unfold volt_channel_flag
  by_cases h1 : f32_isfinite v <;>
    by_cases h2 : f32_lt v volt_min_bits || f32_lt volt_max_bits v <;>
      simp [h1, h2]

theorem temp_step_eq (acc t : Nat) :
    (if !f32_isfinite t then acc ||| flagDecodeError
     else if f32_lt t temp_min_bits || f32_lt temp_max_bits t then
       acc ||| flagRangeError
     else acc) = acc ||| temp_channel_flag t := by
  unfold temp_channel_flag
  by_cases h1 : f32_isfinite t <;>
    by_cases h2 : f32_lt t temp_min_bits || f32_lt temp_max_bits t <;>
      simp [h1, h2]

theorem foldl_or_testBit {α : Type} (g : α → Nat) (j : Nat) :
    ∀ (l : List α) (init : Nat),
      (l.foldl (fun acc x => acc ||| g x) init).testBit j
        = (init.testBit j || l.any fun x => (g x).testBit j)
  | [], init => by simp
  | a :: l, init => by
    simp [List.foldl_cons, foldl_or_testBit g j l (init ||| g a),
      Nat.testBit_lor, Bool.or_assoc]

theorem validate_voltage_eq_foldl (now : Int) (b : VoltageBatch)
    (hf : b.flags = 0) :
    validate_voltage_batch now b
      = (List.finRange 16).foldl
          (fun acc i => acc ||| volt_channel_flag (b.voltages i))
          (if !b.ts.valid || !is_timestamp_reasonable now b.ts.timestamp
           then flagTimestampInvalid else 0) := by
  unfold validate_voltage_batch
  simp only [hf, ne_eq, not_true_eq_false, if_false, ite_false, reduceIte,
    Nat.zero_or]
  congr 1
  funext acc i
  exact volt_step_eq acc (b.voltages i)

theorem validate_temperature_eq_foldl (now : Int) (b : TemperatureBatch)
    (hf : b.flags = 0) :
    validate_temperature_batch now b
      = (List.finRange 16).foldl
          (fun acc i => acc ||| temp_channel_flag (b.temperatures i))
          (if !b.ts.valid || !is_timestamp_reasonable now b.ts.timestamp
           then flagTimestampInvalid else 0) := by
  unfold validate_temperature_batch
  simp only [hf, ne_eq, not_true_eq_false, if_false, ite_false, reduceIte,
    Nat.zero_or]
  congr 1
  funext acc i
  exact temp_step_eq acc (b.temperatures i)

set_option maxRecDepth 10000 in
theorem val149_volt_min : f32_val149 volt_min_bits = 2 * 2 ^ 149 := by decide

set_option maxRecDepth 10000 in
theorem val149_volt_max : f32_val149 volt_max_bits = 9 * 2 ^ 148 := by decide

set_option maxRecDepth 10000 in
theorem val149_temp_min : f32_val149 temp_min_bits = -50 * 2 ^ 149 := by decide

set_option maxRecDepth 10000 in
theorem val149_temp_max : f32_val149 temp_max_bits = 100 * 2 ^ 149 := by decide


set_option maxRecDepth 10000

theorem volt_flag_val (v : Nat) :
    volt_channel_flag v =
      if f32_isfinite v = false then flagDecodeError
      else if f32_val149 v < 2 * 2 ^ 149 ∨ 9 * 2 ^ 148 < f32_val149 v then
        flagRangeError
      else 0 := by
  unfold volt_channel_flag f32_lt
  simp only [val149_volt_min, val149_volt_max]
  by_cases h1 : f32_isfinite v
  · by_cases h2 : f32_val149 v < 2 * 2 ^ 149 ∨ 9 * 2 ^ 148 < f32_val149 v <;>
      simp [h1, h2]
  · have h1f : f32_isfinite v = false := by simpa using h1
    simp [h1f]

theorem temp_flag_val (t : Nat) :
    temp_channel_flag t =
      if f32_isfinite t = false then flagDecodeError
      else if f32_val149 t < -50 * 2 ^ 149 ∨ 100 * 2 ^ 149 < f32_val149 t then
        flagRangeError
      else 0 := by
  unfold temp_channel_flag f32_lt
  simp only [val149_temp_min, val149_temp_max]
  by_cases h1 : f32_isfinite t
  · by_cases h2 : f32_val149 t < -50 * 2 ^ 149 ∨ 100 * 2 ^ 149 < f32_val149 t <;>
      simp [h1, h2]
  · have h1f : f32_isfinite t = false := by simpa using h1
    simp [h1f]

theorem volt_flag_bit3 (v : Nat) :
    (volt_channel_flag v).testBit 3 = true ↔
      (f32_isfinite v = true ∧
        (f32_val149 v < 2 * 2 ^ 149 ∨ 9 * 2 ^ 148 < f32_val149 v)) := by
  rw [volt_flag_val]
  by_cases h1 : f32_isfinite v
  · rw [if_neg (by simp [h1])]
    by_cases h2 : f32_val149 v < 2 * 2 ^ 149 ∨ 9 * 2 ^ 148 < f32_val149 v
    · rw [if_pos h2]
      exact iff_of_true (by decide) ⟨h1, h2⟩
    · rw [if_neg h2]
      exact iff_of_false (by decide) (fun hc => h2 hc.2)
  · have h1f : f32_isfinite v = false := by simpa using h1
    rw [if_pos h1f]
    exact iff_of_false (by decide) (fun hc => absurd hc.1 (by simp [h1f]))

theorem volt_flag_bit2 (v : Nat) :
    (volt_channel_flag v).testBit 2 = true ↔ f32_isfinite v = false := by
  rw [volt_flag_val]
  by_cases h1 : f32_isfinite v
  · rw [if_neg (by simp [h1])]
    by_cases h2 : f32_val149 v < 2 * 2 ^ 149 ∨ 9 * 2 ^ 148 < f32_val149 v
    · rw [if_pos h2]
      exact iff_of_false (by decide) (by simp [h1])
    · rw [if_neg h2]
      exact iff_of_false (by decide) (by simp [h1])
  · have h1f : f32_isfinite v = false := by simpa using h1
    rw [if_pos h1f]
    exact iff_of_true (by decide) h1f

theorem temp_flag_bit3 (t : Nat) :
    (temp_channel_flag t).testBit 3 = true ↔
      (f32_isfinite t = true ∧
        (f32_val149 t < -50 * 2 ^ 149 ∨ 100 * 2 ^ 149 < f32_val149 t)) := by
  rw [temp_flag_val]
  by_cases h1 : f32_isfinite t
  · rw [if_neg (by simp [h1])]
    by_cases h2 : f32_val149 t < -50 * 2 ^ 149 ∨ 100 * 2 ^ 149 < f32_val149 t
    · rw [if_pos h2]
      exact iff_of_true (by decide) ⟨h1, h2⟩
    · rw [if_neg h2]
      exact iff_of_false (by decide) (fun hc => h2 hc.2)
  · have h1f : f32_isfinite t = false := by simpa using h1
    rw [if_pos h1f]
    exact iff_of_false (by decide) (fun hc => absurd hc.1 (by simp [h1f]))

theorem temp_flag_bit2 (t : Nat) :
    (temp_channel_flag t).testBit 2 = true ↔ f32_isfinite t = false := by
  rw [temp_flag_val]
  by_cases h1 : f32_isfinite t
  · rw [if_neg (by simp [h1])]
    by_cases h2 : f32_val149 t < -50 * 2 ^ 149 ∨ 100 * 2 ^ 149 < f32_val149 t
    · rw [if_pos h2]
      exact iff_of_false (by decide) (by simp [h1])
    · rw [if_neg h2]
      exact iff_of_false (by decide) (by simp [h1])
  · have h1f : f32_isfinite t = false := by simpa using h1
    rw [if_pos h1f]
    exact iff_of_true (by decide) h1f

-- ===========================================================================
-- Example values used by witnesses
-- ===========================================================================

/-- Example voltage batch with no flags, a valid timestamp at the Unix epoch,
and every channel holding the 2.0f pattern. -/
def vbr : VoltageBatch :=
  { ts := { device_epoch := 0, subseconds_ms := 0, timestamp := 0, valid := true }
    voltages := fun _ => volt_min_bits
    seq := 0
    flags := 0
    device_id := 1 }

/-- Example temperature batch with no flags, a valid timestamp, and every
channel holding the 100.0f pattern. -/
def tbr : TemperatureBatch :=
  { ts := { device_epoch := 0, subseconds_ms := 0, timestamp := 0, valid := true }
    temperatures := fun _ => temp_max_bits
    seq := 0
    flags := 0 }

/-- Example all-zero voltage batch. -/
def vb0 : VoltageBatch :=
  { ts := { device_epoch := 0, subseconds_ms := 0, timestamp := 0, valid := false }
    voltages := fun _ => 0
    seq := 0
    flags := 0
    device_id := 0 }

/-- Example all-zero temperature batch. -/
def tb0 : TemperatureBatch :=
  { ts := { device_epoch := 0, subseconds_ms := 0, timestamp := 0, valid := false }
    temperatures := fun _ => 0
    seq := 0
    flags := 0 }

/-- Example register block: register i holds the value i. -/
def regs_ex : Fin 35 → Nat := fun i => i.val

-- ===========================================================================
-- C2. Validation returns flagged batches unchanged and is idempotent
-- ===========================================================================

/-- C2: for every voltage or temperature batch that already carries at least
one SampleFlags bit, validation returns the batch's flags unchanged (for every
wall-clock instant, hence performing no timestamp or range checks), and
re-validating a batch whose flags were set to the validation result yields the
same flags: validate(validate(b)) = validate(b). -/
theorem validate_voltage_flagged (now : Int) (b : VoltageBatch)
    (hb : b.flags ≠ 0) : validate_voltage_batch now b = b.flags := by
  unfold validate_voltage_batch; simp [hb]

theorem validate_temperature_flagged (now : Int) (tb : TemperatureBatch)
    (htb : tb.flags ≠ 0) : validate_temperature_batch now tb = tb.flags := by
  unfold validate_temperature_batch; simp [htb]

/-- C2: for every voltage or temperature batch that already carries at least
one SampleFlags bit, validation returns the batch's flags unchanged (for every
wall-clock instant, hence performing no timestamp or range checks), and
re-validating a batch whose flags were set to the validation result yields the
same flags: validate(validate(b)) = validate(b). -/
theorem c2_validate_flagged_identity (now1 now2 : Int)
    (b : VoltageBatch) (tb : TemperatureBatch)
    (hb : b.flags ≠ 0) (htb : tb.flags ≠ 0) :
    validate_voltage_batch now1 b = b.flags
    ∧ validate_voltage_batch now2
        { b with flags := validate_voltage_batch now1 b }
        = validate_voltage_batch now1 b
    ∧ validate_temperature_batch now1 tb = tb.flags
    ∧ validate_temperature_batch now2
        { tb with flags := validate_temperature_batch now1 tb }
        = validate_temperature_batch now1 tb := by
  have hx : validate_voltage_batch now1 b = b.flags :=
    validate_voltage_flagged now1 b hb
  have hy : validate_temperature_batch now1 tb = tb.flags :=
    validate_temperature_flagged now1 tb htb
  have hnzv : ({ b with flags := validate_voltage_batch now1 b } :
      VoltageBatch).flags ≠ 0 := by
    show validate_voltage_batch now1 b ≠ 0
    rw [hx]; exact hb
  have hnzt : ({ tb with flags := validate_temperature_batch now1 tb } :
      TemperatureBatch).flags ≠ 0 := by
    show validate_temperature_batch now1 tb ≠ 0
    rw [hy]; exact htb
  exact ⟨hx, validate_voltage_flagged now2 _ hnzv, hy,
    validate_temperature_flagged now2 _ hnzt⟩

/-- C2 witness: validation at a concrete flagged batch (CommError set). -/
theorem c2_validate_flagged_identity_witness :
    (({ vb0 with flags := 1 } : VoltageBatch).flags ≠ 0)
    ∧ validate_voltage_batch 0 { vb0 with flags := 1 }
        = ({ vb0 with flags := 1 } : VoltageBatch).flags
    ∧ validate_temperature_batch 0 { tb0 with flags := 4 }
        = ({ tb0 with flags := 4 } : TemperatureBatch).flags :=
  ⟨by decide,
    (c2_validate_flagged_identity 0 0 { vb0 with flags := 1 }
      { tb0 with flags := 4 } (by decide) (by decide)).1,
    (c2_validate_flagged_identity 0 0 { vb0 with flags := 1 }
      { tb0 with flags := 4 } (by decide) (by decide)).2.2.1⟩

-- ===========================================================================
-- C3. Range boundaries and non-finite handling of validation
-- ===========================================================================

/-- C3: on a flag-free batch with a valid, reasonable timestamp, RangeError is
set exactly when some channel holds a finite value strictly below the lower
bound or strictly above the upper bound (voltage bounds 2.0 and 4.5,
temperature bounds -50.0 and 100.0, on the exact value*2^149 scale), so the
boundary values themselves never set RangeError; and DecodeError is set
exactly when some channel holds a non-finite value, which therefore
contributes no RangeError for that channel. -/
theorem c3_range_boundaries (now : Int) (b : VoltageBatch)
    (tb : TemperatureBatch)
    (hbf : b.flags = 0) (hbv : b.ts.valid = true)
    (hbr : is_timestamp_reasonable now b.ts.timestamp = true)
    (htf : tb.flags = 0) (htv : tb.ts.valid = true)
    (htr : is_timestamp_reasonable now tb.ts.timestamp = true) :
    ((validate_voltage_batch now b).testBit 3 = true ↔
      (∃ i : Fin 16, f32_isfinite (b.voltages i) = true ∧
        (f32_val149 (b.voltages i) < 2 * 2 ^ 149
          ∨ 9 * 2 ^ 148 < f32_val149 (b.voltages i))))
    ∧ ((validate_voltage_batch now b).testBit 2 = true ↔
      (∃ i : Fin 16, f32_isfinite (b.voltages i) = false))
    ∧ ((validate_temperature_batch now tb).testBit 3 = true ↔
      (∃ i : Fin 16, f32_isfinite (tb.temperatures i) = true ∧
        (f32_val149 (tb.temperatures i) < -50 * 2 ^ 149
          ∨ 100 * 2 ^ 149 < f32_val149 (tb.temperatures i))))
    ∧ ((validate_temperature_batch now tb).testBit 2 = true ↔
      (∃ i : Fin 16, f32_isfinite (tb.temperatures i) = false)) := by
  have hvinit :
      (if !b.ts.valid || !is_timestamp_reasonable now b.ts.timestamp
       then flagTimestampInvalid else 0) = 0 := by
    rw [hbv, hbr]; decide
  have htinit :
      (if !tb.ts.valid || !is_timestamp_reasonable now tb.ts.timestamp
       then flagTimestampInvalid else 0) = 0 := by
    rw [htv, htr]; decide
  have hveq := validate_voltage_eq_foldl now b hbf
  rw [hvinit] at hveq
  have hteq := validate_temperature_eq_foldl now tb htf
  rw [htinit] at hteq
  refine ⟨?_, ?_, ?_, ?_⟩
  · rw [hveq, foldl_or_testBit]
    simp only [Nat.zero_testBit, Bool.false_or, List.any_eq_true,
      List.mem_finRange, true_and]
    exact exists_congr fun i => volt_flag_bit3 (b.voltages i)
  · rw [hveq, foldl_or_testBit]
    simp only [Nat.zero_testBit, Bool.false_or, List.any_eq_true,
      List.mem_finRange, true_and]
    exact exists_congr fun i => volt_flag_bit2 (b.voltages i)
  · rw [hteq, foldl_or_testBit]
    simp only [Nat.zero_testBit, Bool.false_or, List.any_eq_true,
      List.mem_finRange, true_and]
    exact exists_congr fun i => temp_flag_bit3 (tb.temperatures i)
  · rw [hteq, foldl_or_testBit]
    simp only [Nat.zero_testBit, Bool.false_or, List.any_eq_true,
      List.mem_finRange, true_and]
    exact exists_congr fun i => temp_flag_bit2 (tb.temperatures i)

/-- C3 witness: a batch whose channels all hold the boundary pattern 2.0f
(resp. 100.0f) with a valid Unix-epoch timestamp observed at wall clock 0. -/
theorem c3_range_boundaries_witness :
    (vbr.flags = 0 ∧ vbr.ts.valid = true
      ∧ is_timestamp_reasonable 0 vbr.ts.timestamp = true)
    ∧ ((validate_voltage_batch 0 vbr).testBit 3 = true ↔
      (∃ i : Fin 16, f32_isfinite (vbr.voltages i) = true ∧
        (f32_val149 (vbr.voltages i) < 2 * 2 ^ 149
          ∨ 9 * 2 ^ 148 < f32_val149 (vbr.voltages i))))
    ∧ ((validate_temperature_batch 0 tbr).testBit 3 = true ↔
      (∃ i : Fin 16, f32_isfinite (tbr.temperatures i) = true ∧
        (f32_val149 (tbr.temperatures i) < -50 * 2 ^ 149
          ∨ 100 * 2 ^ 149 < f32_val149 (tbr.temperatures i)))) :=
  ⟨⟨rfl, rfl, by decide⟩,
    (c3_range_boundaries 0 vbr tbr rfl rfl (by decide) rfl rfl (by decide)).1,
    (c3_range_boundaries 0 vbr tbr rfl rfl (by decide) rfl rfl
      (by decide)).2.2.1⟩

-- ===========================================================================
-- C1. The device identifier member of VoltageBatch
-- ===========================================================================

/-- C1: the voltage producer assigns a device identifier member on every
acquisition attempt and the line formatter reads it, but the declared
VoltageBatch struct member list contains no such member — the declaration in
batch_structures.hpp is missing the field its own callers require, so the
claim fails on the declared struct (a latent source defect: the usage sites
cannot compile against the declaration). -/
theorem c1_device_id_missing_from_declared_struct :
    "device_id" ∈ voltage_producer_assigned_members
    ∧ "device_id" ∈ voltage_formatter_read_members
    ∧ "device_id" ∉ voltage_batch_declared_members := by decide

-- ===========================================================================
-- C4. Register-block decode layout of the populate functions
-- ===========================================================================

/-- C4: for every 35-word register block of 16-bit values,
populate_voltage_batch (and populate_temperature_batch) sets device_epoch to
regs 0 <<< 16 ||| regs 1, subseconds_ms to regs 2, channel i to the binary32
pattern regs (3+2i) <<< 16 ||| regs (3+2i+1), the derived timestamp to the
2000-01-01 reference (946,684,800 s after the Unix epoch) plus device_epoch
seconds plus subseconds_ms milliseconds (in nanoseconds), and ts.valid to true
unconditionally. -/
theorem c4_populate_layout (b : VoltageBatch) (tb : TemperatureBatch)
    (regs : Fin 35 → Nat) (hreg : ∀ i, regs i < 2 ^ 16) :
    ((populate_voltage_batch b regs).ts.device_epoch
        = regs 0 <<< 16 ||| regs 1)
    ∧ ((populate_voltage_batch b regs).ts.subseconds_ms = regs 2)
    ∧ (∀ i : Fin 16, (populate_voltage_batch b regs).voltages i
        = regs ⟨3 + 2 * i.val, by omega⟩ <<< 16
            ||| regs ⟨3 + 2 * i.val + 1, by omega⟩)
    ∧ ((populate_voltage_batch b regs).ts.timestamp
        = 946684800 * 1000000000
            + ((regs 0 <<< 16 ||| regs 1 : Nat) : Int) * 1000000000
            + ((regs 2 : Nat) : Int) * 1000000)
    ∧ ((populate_voltage_batch b regs).ts.valid = true)
    ∧ ((populate_temperature_batch tb regs).ts.device_epoch
        = regs 0 <<< 16 ||| regs 1)
    ∧ ((populate_temperature_batch tb regs).ts.subseconds_ms = regs 2)
    ∧ (∀ i : Fin 16, (populate_temperature_batch tb regs).temperatures i
        = regs ⟨3 + 2 * i.val, by omega⟩ <<< 16
            ||| regs ⟨3 + 2 * i.val + 1, by omega⟩)
    ∧ ((populate_temperature_batch tb regs).ts.timestamp
        = 946684800 * 1000000000
            + ((regs 0 <<< 16 ||| regs 1 : Nat) : Int) * 1000000000
            + ((regs 2 : Nat) : Int) * 1000000)
    ∧ ((populate_temperature_batch tb regs).ts.valid = true) := by
  have hm : ∀ i : Fin 35, regs i % 2 ^ 16 = regs i :=
    fun i => Nat.mod_eq_of_lt (hreg i)
  refine ⟨?_, ?_, ?_, ?_, rfl, ?_, ?_, ?_, ?_, rfl⟩
  · show ((regs 0 % 2 ^ 16) <<< 16) ||| (regs 1 % 2 ^ 16)
        = regs 0 <<< 16 ||| regs 1
    rw [hm 0, hm 1]
  · exact hm 2
  · intro i
    show modbus_registers_to_float _ _ = _
    unfold modbus_registers_to_float
    rw [hm _, hm _]
  · show device_epoch_to_timepoint
        (((regs 0 % 2 ^ 16) <<< 16) ||| (regs 1 % 2 ^ 16)) (regs 2 % 2 ^ 16)
        = _
    unfold device_epoch_to_timepoint kUnixEpoch2000
    rw [hm 0, hm 1, hm 2]
    norm_num
  · show ((regs 0 % 2 ^ 16) <<< 16) ||| (regs 1 % 2 ^ 16)
        = regs 0 <<< 16 ||| regs 1
    rw [hm 0, hm 1]
  · exact hm 2
  · intro i
    show modbus_registers_to_float _ _ = _
    unfold modbus_registers_to_float
    rw [hm _, hm _]
  · show device_epoch_to_timepoint
        (((regs 0 % 2 ^ 16) <<< 16) ||| (regs 1 % 2 ^ 16)) (regs 2 % 2 ^ 16)
        = _
    unfold device_epoch_to_timepoint kUnixEpoch2000
    rw [hm 0, hm 1, hm 2]
    norm_num

/-- C4 witness: the decode layout evaluated on the register block whose i-th
register holds i. -/
theorem c4_populate_layout_witness :
    (regs_ex 0 < 2 ^ 16)
    ∧ (populate_voltage_batch vb0 regs_ex).ts.device_epoch
        = regs_ex 0 <<< 16 ||| regs_ex 1
    ∧ (populate_voltage_batch vb0 regs_ex).ts.valid = true
    ∧ (populate_temperature_batch tb0 regs_ex).ts.subseconds_ms = regs_ex 2 :=
  ⟨by decide,
    (c4_populate_layout vb0 tb0 regs_ex (by decide)).1,
    (c4_populate_layout vb0 tb0 regs_ex (by decide)).2.2.2.2.1,
    (c4_populate_layout vb0 tb0 regs_ex (by decide)).2.2.2.2.2.2.1⟩

-- ===========================================================================
-- batch_pool.hpp : BatchPool model
-- ===========================================================================

/-- reset_batch (BatchPool::reset_batch, batch_pool.hpp lines 309-315): clear
the timestamp-valid flag and the flag bitmask; channel data is left stale. -/
def reset_batch (b : VoltageBatch) : VoltageBatch :=
  { b with ts := { b.ts with valid := false }, flags := 0 }

/-- State of a BatchPool<VoltageBatch>.  Objects are identified by Nat ids;
`store` gives each object's current contents, `free` is the lock-free free
stack (top first), `owned` the ownership table of preallocated objects.  The
boost atomic counters are plain Nat fields.  new(std::nothrow) is modelled as
always succeeding (the claims considered condition on successful
preallocation), so heap_failures is never incremented. -/
structure PoolState where
  free : List Nat
  store : Nat → VoltageBatch
  owned : List Nat
  capacity : Nat
  allow_heap : Bool
  next_heap_id : Nat
  preallocated : Nat
  acquired : Nat
  released : Nat
  in_pool : Nat
  allocation_failures : Nat
  heap_allocs : Nat
  deletes : Nat
  release_failures : Nat
  leaked_on_shutdown : Nat

/-- BatchPool constructor with all `capacity` preallocations succeeding:
objects 0..capacity-1 are created, recorded in the ownership table, and pushed
onto the free stack in order (so the stack top is id capacity-1). -/
def mkPool (capacity : Nat) (allow_heap : Bool) : PoolState :=
  { free := (List.range capacity).reverse
    store := fun _ => vb0
    owned := List.range capacity
    capacity := capacity
    allow_heap := allow_heap
    next_heap_id := capacity
    preallocated := capacity
    acquired := 0
    released := 0
    in_pool := capacity
    allocation_failures := 0
    heap_allocs := 0
    deletes := 0
    release_failures := 0
    leaked_on_shutdown := 0 }

/-- BatchPool::acquire (batch_pool.hpp lines 154-187).  Returns the id of the
acquired object (none models nullptr). -/
def PoolState.acquire (s : PoolState) : Option Nat × PoolState :=
  match s.free with
  | o :: rest =>
      (some o,
        { s with
          free := rest
          in_pool := s.in_pool - 1
          acquired := s.acquired + 1
          store := fun i => if i = o then reset_batch (s.store o) else s.store i })
  | [] =>
      let s1 := { s with allocation_failures := s.allocation_failures + 1 }
      if !s.allow_heap then (none, s1)
      else
        let o := s.next_heap_id
        (some o,
          { s1 with
            next_heap_id := o + 1
            heap_allocs := s.heap_allocs + 1
            acquired := s.acquired + 1
            store := fun i => if i = o then reset_batch (s.store o) else s.store i })

/-- BatchPool::release (batch_pool.hpp lines 208-233).  The free stack has
physical capacity `capacity`, so the push fails when it is full. -/
def PoolState.release (s : PoolState) (o : Nat) : PoolState :=
  if s.free.length < s.capacity then
    { s with
      free := o :: s.free
      released := s.released + 1
      in_pool := s.in_pool + 1 }
  else
    let s1 := { s with release_failures := s.release_failures + 1 }
    if o ∈ s.owned then s1
    else { s1 with deletes := s.deletes + 1 }

/-- BatchPool::in_use_count (batch_pool.hpp lines 283-288). -/
def PoolState.in_use_count (s : PoolState) : Nat :=
  if s.acquired > s.released then s.acquired - s.released else 0

/-- Observable outcome of the BatchPool destructor. -/
structure DestroyOutcome where
  deleted : List Nat
  leaked_on_shutdown : Nat
deriving Repr, DecidableEq

/-- BatchPool destructor (batch_pool.hpp lines 116-143): drain the free
stack; if the in-use count is zero delete every preallocated object,
otherwise delete nothing and store the in-use count in leaked_on_shutdown. -/
def PoolState.destroy (s : PoolState) : DestroyOutcome :=
  let in_use := s.in_use_count
  if in_use = 0 then
    { deleted := s.owned, leaked_on_shutdown := s.leaked_on_shutdown }
  else
    { deleted := [], leaked_on_shutdown := in_use }

/-- Iterate acquire n times, collecting the results in order. -/
def acquireSeq (s : PoolState) : Nat → List (Option Nat) × PoolState
  | 0 => ([], s)
  | n + 1 =>
      let (r, s1) := s.acquire
      let (rs, s2) := acquireSeq s1 n
      (r :: rs, s2)


theorem acquireSeq_zero (s : PoolState) : acquireSeq s 0 = ([], s) := rfl

theorem acquireSeq_succ (s : PoolState) (n : Nat) :
    acquireSeq s (n + 1)
      = (s.acquire.1 :: (acquireSeq s.acquire.2 n).1,
          (acquireSeq s.acquire.2 n).2) := rfl

/-- State after a successful pop of the free-stack top inside acquire. -/
def PoolState.popTop (s : PoolState) (o : Nat) (rest : List Nat) : PoolState :=
  { s with
    free := rest
    in_pool := s.in_pool - 1
    acquired := s.acquired + 1
    store := fun i => if i = o then reset_batch (s.store o) else s.store i }

/-- State after an acquire that found the free stack empty (heap disabled). -/
def PoolState.exhausted (s : PoolState) : PoolState :=
  { s with allocation_failures := s.allocation_failures + 1 }

theorem acquire_cons (s : PoolState) (o : Nat) (rest : List Nat)
    (hfree : s.free = o :: rest) : s.acquire = (some o, s.popTop o rest) := by
  unfold PoolState.acquire PoolState.popTop
  rw [hfree]

theorem acquire_nil (s : PoolState) (hfree : s.free = [])
    (hh : s.allow_heap = false) : s.acquire = (none, s.exhausted) := by
  unfold PoolState.acquire PoolState.exhausted
  rw [hfree, hh]
  rfl

/-- Running acquire free-list-length + 1 times on a heap-fallback-disabled
pool yields every free object once (in stack order), then an absent result;
allocation_failures increments exactly once, each handed-out object was
reset, and no other object's contents change. -/
theorem acquireSeq_exhaust :
    ∀ (l : List Nat) (s : PoolState), s.free = l → s.allow_heap = false →
      l.Nodup →
      (acquireSeq s (l.length + 1)).1 = l.map some ++ [none]
      ∧ (acquireSeq s (l.length + 1)).2.allocation_failures
          = s.allocation_failures + 1
      ∧ (∀ o ∈ l, (acquireSeq s (l.length + 1)).2.store o
          = reset_batch (s.store o))
      ∧ (∀ i, i ∉ l → (acquireSeq s (l.length + 1)).2.store i = s.store i)
  | [], s, hfree, hh, _ => by
    have hrun : acquireSeq s (([] : List Nat).length + 1)
        = ([none], s.exhausted) := by
      rw [List.length_nil, acquireSeq_succ, acquire_nil s hfree hh,
        acquireSeq_zero]
    refine ⟨by rw [hrun]; rfl, by rw [hrun]; rfl, ?_, ?_⟩
    · intro o ho
      exact absurd ho (List.not_mem_nil o)
    · intro i _
      rw [hrun]
      rfl
  | o :: rest, s, hfree, hh, hnd => by
    have hrun : acquireSeq s ((o :: rest).length + 1)
        = (some o :: (acquireSeq (s.popTop o rest) (rest.length + 1)).1,
            (acquireSeq (s.popTop o rest) (rest.length + 1)).2) := by
      rw [List.length_cons, acquireSeq_succ, acquire_cons s o rest hfree]
    have hno : o ∉ rest := (List.nodup_cons.mp hnd).1
    have ih := acquireSeq_exhaust rest (s.popTop o rest) rfl hh
      (List.nodup_cons.mp hnd).2
    have hpopo : (s.popTop o rest).store o = reset_batch (s.store o) := by
      unfold PoolState.popTop
      simp
    have hpopne : ∀ i, i ≠ o → (s.popTop o rest).store i = s.store i := by
      intro i hine
      unfold PoolState.popTop
      simp [hine]
    refine ⟨?_, ?_, ?_, ?_⟩
    · rw [hrun]
      dsimp only
      rw [ih.1]
      simp
    · rw [hrun]
      dsimp only
      rw [ih.2.1]
      rfl
    · intro x hx
      rw [hrun]
      dsimp only
      rcases List.mem_cons.mp hx with hxo | hxr
      · subst hxo
        rw [ih.2.2.2 x hno, hpopo]
      · rw [ih.2.2.1 x hxr]
        have hxne : x ≠ o := fun hc => hno (hc ▸ hxr)
        rw [hpopne x hxne]
    · intro i hi
      rw [hrun]
      dsimp only
      have hir : i ∉ rest := fun hc => hi (List.mem_cons_of_mem o hc)
      have hine : i ≠ o := fun hc => hi (hc ▸ List.mem_cons_self o rest)
      rw [ih.2.2.2 i hir, hpopne i hine]

/-- C5: with heap fallback disabled and capacity C (all C preallocations
succeeding), C+1 acquire calls with no intervening release return an object on
each of the first C calls and an absent result (nullptr) on the (C+1)th; the
allocation-failure counter goes from 0 to exactly 1 over the sequence; and
every successfully acquired object has ts.valid = false and flags = None. -/
theorem c5_pool_exhaustion (C : Nat) :
    (∀ r ∈ (acquireSeq (mkPool C false) (C + 1)).1.take C, ∃ o, r = some o)
    ∧ (acquireSeq (mkPool C false) (C + 1)).1.drop C = [none]
    ∧ (mkPool C false).allocation_failures = 0
    ∧ (acquireSeq (mkPool C false) (C + 1)).2.allocation_failures = 1
    ∧ (∀ o : Nat, some o ∈ (acquireSeq (mkPool C false) (C + 1)).1 →
        ((acquireSeq (mkPool C false) (C + 1)).2.store o).ts.valid = false
        ∧ ((acquireSeq (mkPool C false) (C + 1)).2.store o).flags = 0) := by
  have hlen : ((List.range C).reverse.length) = C := by simp
  have h := acquireSeq_exhaust (List.range C).reverse (mkPool C false) rfl rfl
    (List.nodup_reverse.mpr (List.nodup_range C))
  rw [hlen] at h
  have hml : ((List.range C).reverse.map some).length = C := by simp
  refine ⟨?_, ?_, rfl, ?_, ?_⟩
  · intro r hr
    rw [h.1] at hr
    have : r ∈ (List.range C).reverse.map some := by
      rw [List.take_append_of_le_length (by rw [hml])] at hr
      exact List.mem_of_mem_take hr
    rcases List.mem_map.mp this with ⟨o, _, rfl⟩
    exact ⟨o, rfl⟩
  · rw [h.1, List.drop_append_of_le_length (by rw [hml])]
    simp [hml]
  · rw [h.2.1]
    rfl
  · intro o ho
    rw [h.1] at ho
    have hom : o ∈ (List.range C).reverse := by
      rcases List.mem_append.mp ho with hm | hm
      · rcases List.mem_map.mp hm with ⟨x, hx, hxe⟩
        cases hxe
        exact hx
      · simp at hm
    rw [h.2.2.1 o hom]
    exact ⟨rfl, rfl⟩

/-- C5 witness: capacity 2, three acquires. -/
theorem c5_pool_exhaustion_witness :
    (acquireSeq (mkPool 2 false) (2 + 1)).1.drop 2 = [none]
    ∧ (acquireSeq (mkPool 2 false) (2 + 1)).2.allocation_failures = 1
    ∧ ((acquireSeq (mkPool 2 false) (2 + 1)).2.store 1).ts.valid = false
    ∧ ((acquireSeq (mkPool 2 false) (2 + 1)).2.store 1).flags = 0 :=
  ⟨(c5_pool_exhaustion 2).2.1, (c5_pool_exhaustion 2).2.2.2.1,
    ((c5_pool_exhaustion 2).2.2.2.2 1 (by decide)).1,
    ((c5_pool_exhaustion 2).2.2.2.2 1 (by decide)).2⟩

-- ===========================================================================
-- C6. Destructor leak accounting
-- ===========================================================================

/-- C6: destroying a pool whose in-use count (total acquired minus total
released, floored at zero) is non-zero deletes no preallocated object and
reports that count through leaked_on_shutdown; destroying a pool whose in-use
count is zero deletes every preallocated object and leaves leaked_on_shutdown
at its prior value 0. -/
theorem c6_destroy_leak_accounting (s : PoolState)
    (hl : s.leaked_on_shutdown = 0) :
    (s.in_use_count ≠ 0 →
      s.destroy.deleted = [] ∧ s.destroy.leaked_on_shutdown = s.in_use_count)
    ∧ (s.in_use_count = 0 →
      s.destroy.deleted = s.owned ∧ s.destroy.leaked_on_shutdown = 0) := by
  constructor
  · intro hne
    unfold PoolState.destroy
    rw [if_neg hne]
    exact ⟨rfl, rfl⟩
  · intro heq
    unfold PoolState.destroy
    rw [if_pos heq]
    exact ⟨rfl, hl⟩

/-- C6 witness: a capacity-2 pool after one acquire (in-use 1) leaks 1 and
deletes nothing; the freshly constructed pool deletes both preallocated
objects and leaks nothing. -/
theorem c6_destroy_leak_accounting_witness :
    ((mkPool 2 false).acquire.2.leaked_on_shutdown = 0)
    ∧ (mkPool 2 false).acquire.2.in_use_count ≠ 0
    ∧ (mkPool 2 false).acquire.2.destroy.deleted = []
    ∧ (mkPool 2 false).acquire.2.destroy.leaked_on_shutdown
        = (mkPool 2 false).acquire.2.in_use_count
    ∧ (mkPool 2 false).destroy.deleted = (mkPool 2 false).owned
    ∧ (mkPool 2 false).destroy.leaked_on_shutdown = 0 :=
  ⟨by decide, by decide,
    ((c6_destroy_leak_accounting (mkPool 2 false).acquire.2 (by decide)).1
      (by decide)).1,
    ((c6_destroy_leak_accounting (mkPool 2 false).acquire.2 (by decide)).1
      (by decide)).2,
    ((c6_destroy_leak_accounting (mkPool 2 false) (by decide)).2 (by decide)).1,
    ((c6_destroy_leak_accounting (mkPool 2 false) (by decide)).2
      (by decide)).2⟩

-- ===========================================================================
-- safe_queue.hpp : SafeQueue model
-- ===========================================================================

/-- State of a SafeQueue.  `items` is the FIFO content of the bounded
lock-free queue (front first); pointers are Nat ids and a push argument of
none models nullptr. -/
structure QueueState where
  items : List Nat
  capacity : Nat
  closed : Bool
  dropped : Nat
  pushed : Nat
  popped : Nat
deriving Repr, DecidableEq

/-- SafeQueue constructor: empty, open, zero counters. -/
def mkQueue (capacity : Nat) : QueueState :=
  { items := [], capacity := capacity, closed := false,
    dropped := 0, pushed := 0, popped := 0 }

/-- SafeQueue::push (safe_queue.hpp lines 90-108).  Null input fails
immediately; a closed queue fails and counts a drop; the bounded lock-free
enqueue succeeds exactly when there is spare capacity, else the drop counter
increments. -/
def QueueState.push (s : QueueState) (p : Option Nat) : Bool × QueueState :=
  match p with
  | none => (false, s)
  | some x =>
      if s.closed then (false, { s with dropped := s.dropped + 1 })
      else if s.items.length < s.capacity then
        (true, { s with items := s.items ++ [x], pushed := s.pushed + 1 })
      else (false, { s with dropped := s.dropped + 1 })

/-- SafeQueue::try_pop (safe_queue.hpp lines 114-122). -/
def QueueState.try_pop (s : QueueState) : Option Nat × QueueState :=
  match s.items with
  | [] => (none, s)
  | x :: rest => (some x, { s with items := rest, popped := s.popped + 1 })

/-- SafeQueue::close. -/
def QueueState.close (s : QueueState) : QueueState :=
  { s with closed := true }

/-- Operations a client can perform on a SafeQueue. -/
inductive QOp where
  | push (p : Option Nat)
  | tryPop
  | close
deriving Repr, DecidableEq

/-- Apply one operation to a queue state. -/
def qstep (s : QueueState) : QOp → QueueState
  | QOp.push p => (s.push p).2
  | QOp.tryPop => s.try_pop.2
  | QOp.close => s.close

/-- All values returned by the try_pop operations of an operation sequence. -/
def popOutputs (s : QueueState) : List QOp → List Nat
  | [] => []
  | op :: ops =>
      match op with
      | QOp.tryPop => (s.try_pop.1).toList ++ popOutputs (qstep s op) ops
      | _ => popOutputs (qstep s op) ops

/-- A pointer absent from the queue stays absent under any operation other
than a push of that same pointer. -/
theorem not_mem_qstep (s : QueueState) (x : Nat) (op : QOp)
    (hx : x ∉ s.items) (hop : op ≠ QOp.push (some x)) :
    x ∉ (qstep s op).items := by
  cases op with
  | push p =>
      cases p with
      | none => exact hx
      | some y =>
          have hyx : y ≠ x := fun hc => hop (by rw [hc])
          unfold qstep QueueState.push
          by_cases hc : s.closed
          · simpa [hc] using hx
          · by_cases hlen : s.items.length < s.capacity
            · simp only [hc, hlen, if_true, if_false, ite_true, ite_false,
                reduceIte]
              intro hmem
              rcases List.mem_append.mp hmem with hm | hm
              · exact hx hm
              · exact hyx (List.mem_singleton.mp hm).symm
            · simpa [hc, hlen] using hx
  | tryPop =>
      unfold qstep QueueState.try_pop
      cases hi : s.items with
      | nil => simpa [hi] using hx
      | cons a rest =>
          simp only [hi]
          intro hmem
          exact hx (hi ▸ List.mem_cons_of_mem a hmem)
  | close => exact hx

/-- try_pop can only return values that are in the queue. -/
theorem try_pop_mem (s : QueueState) (x : Nat)
    (hx : x ∈ (s.try_pop.1).toList) : x ∈ s.items := by
  unfold QueueState.try_pop at hx
  cases hi : s.items with
  | nil => rw [hi] at hx; simp at hx
  | cons a rest =>
      rw [hi] at hx
      simp only [Option.toList_some, List.mem_singleton] at hx
      rw [hx]
      exact List.mem_cons_self a rest

/-- A pointer absent from the queue is never produced by try_pop across any
operation sequence that does not push it. -/
theorem popOutputs_not_mem (x : Nat) :
    ∀ (ops : List QOp) (s : QueueState), x ∉ s.items →
      (∀ op ∈ ops, op ≠ QOp.push (some x)) → x ∉ popOutputs s ops
  | [], s, _, _ => by simp [popOutputs]
  | op :: ops, s, hx, hops => by
    have hop : op ≠ QOp.push (some x) := hops op (List.mem_cons_self op ops)
    have hrest : ∀ o ∈ ops, o ≠ QOp.push (some x) :=
      fun o ho => hops o (List.mem_cons_of_mem op ho)
    have hnext : x ∉ (qstep s op).items := not_mem_qstep s x op hx hop
    have ih := popOutputs_not_mem x ops (qstep s op) hnext hrest
    cases op with
    | push p => simpa [popOutputs] using ih
    | close => simpa [popOutputs] using ih
    | tryPop =>
        simp only [popOutputs, List.mem_append]
        intro hmem
        rcases hmem with hm | hm
        · exact hx (try_pop_mem s x hm)
        · exact ih hm

/-- C7: push(nullptr) fails and changes nothing; push on a closed queue fails,
increments the dropped counter and enqueues nothing; push on a full queue
fails, increments the dropped counter and enqueues nothing; a successful push
increments the pushed counter and appends the pointer to the queue; and after
any failed push of a pointer not in the queue, no sequence of further
operations that does not push that pointer can ever pop it — ownership stays
with the pusher. -/
theorem c7_push_ownership (s : QueueState) (x : Nat) :
    (s.push none = (false, s))
    ∧ (s.closed = true →
        (s.push (some x)).1 = false
        ∧ (s.push (some x)).2.dropped = s.dropped + 1
        ∧ (s.push (some x)).2.items = s.items)
    ∧ (s.closed = false → s.capacity ≤ s.items.length →
        (s.push (some x)).1 = false
        ∧ (s.push (some x)).2.dropped = s.dropped + 1
        ∧ (s.push (some x)).2.items = s.items)
    ∧ (s.closed = false → s.items.length < s.capacity →
        (s.push (some x)).1 = true
        ∧ (s.push (some x)).2.pushed = s.pushed + 1
        ∧ (s.push (some x)).2.items = s.items ++ [x])
    ∧ ((s.push (some x)).1 = false → x ∉ s.items →
        ∀ ops : List QOp, (∀ op ∈ ops, op ≠ QOp.push (some x)) →
          x ∉ popOutputs (s.push (some x)).2 ops) := by
  refine ⟨rfl, ?_, ?_, ?_, ?_⟩
  · intro hc
    simp [QueueState.push, hc]
  · intro hc hlen
    have hnl : ¬ s.items.length < s.capacity := by omega
    simp [QueueState.push, hc, hnl]
  · intro hc hlen
    simp [QueueState.push, hc, hlen]
  · intro hfail hx ops hops
    have hitems : (s.push (some x)).2.items = s.items := by
      by_cases hc : s.closed
      · simp [QueueState.push, hc]
      · by_cases hlen : s.items.length < s.capacity
        · exfalso
          have hT : (s.push (some x)).1 = true := by
            simp [QueueState.push, hc, hlen]
          rw [hfail] at hT
          exact Bool.false_ne_true hT
        · simp [QueueState.push, hc, hlen]
    exact popOutputs_not_mem x ops (s.push (some x)).2
      (by rw [hitems]; exact hx) hops

/-- Queue with capacity 1 holding one element (after a successful push). -/
def q1 : QueueState := ((mkQueue 1).push (some 5)).2

/-- C7 witness: a full capacity-1 queue rejects a push of 7, and 7 is never
popped afterwards. -/
theorem c7_push_ownership_witness :
    ((mkQueue 1).push none = (false, mkQueue 1))
    ∧ (q1.closed = false) ∧ (q1.capacity ≤ q1.items.length)
    ∧ (q1.push (some 7)).1 = false
    ∧ (q1.push (some 7)).2.dropped = q1.dropped + 1
    ∧ (q1.push (some 7)).2.items = q1.items
    ∧ 7 ∉ popOutputs (q1.push (some 7)).2 [QOp.tryPop, QOp.tryPop] :=
  ⟨(c7_push_ownership (mkQueue 1) 0).1, by decide, by decide,
    ((c7_push_ownership q1 7).2.2.1 (by decide) (by decide)).1,
    ((c7_push_ownership q1 7).2.2.1 (by decide) (by decide)).2.1,
    ((c7_push_ownership q1 7).2.2.1 (by decide) (by decide)).2.2,
    (c7_push_ownership q1 7).2.2.2.2 (by decide) (by decide)
      [QOp.tryPop, QOp.tryPop] (by decide)⟩

-- ===========================================================================
-- src/influxdb.cpp : InfluxHTTPClient::write_lp retry policy
-- ===========================================================================

/-- Result of one curl_easy_perform call: a completed HTTP exchange carrying
the response status, or a transport-level failure (non-CURLE_OK). -/
inductive PerformResult where
  | completed (httpCode : Nat)
  | transportErr
deriving Repr, DecidableEq

/-- The retry loop of write_lp (influxdb.cpp lines 145-161): attempts are
indexed by `attempt`, `remaining` counts the attempts still allowed after the
current one (initially max_retries).  A completed exchange exits the loop at
once; a transport failure increments the retry counter only when further
attempts remain.  Returns the final transport result and the number of
retry-counter increments. -/
def wlpLoop (perform : Nat → PerformResult) (attempt : Nat) :
    Nat → PerformResult × Nat
  | 0 => (perform attempt, 0)
  | remaining + 1 =>
      match perform attempt with
      | PerformResult.completed c => (PerformResult.completed c, 0)
      | PerformResult.transportErr =>
          let (r, t) := wlpLoop perform (attempt + 1) remaining
          (r, t + 1)

/-- Observable outcome of one write_lp call: return value, retry-counter
increments, failure/post counter increments, and the error-message output. -/
structure WlpOutcome where
  ret : Bool
  retries : Nat
  failures_inc : Nat
  posts_inc : Nat
  error_out : Option String
deriving Repr, DecidableEq

/-- InfluxHTTPClient::write_lp (influxdb.cpp lines 130-187), with the curl
transport modelled by `perform`. -/
def write_lp (perform : Nat → PerformResult) (max_retries : Nat) :
    WlpOutcome :=
  match wlpLoop perform 0 max_retries with
  | (PerformResult.transportErr, t) =>
      { ret := false, retries := t, failures_inc := 1, posts_inc := 0,
        error_out := some "curl transport error" }
  | (PerformResult.completed c, t) =>
      if c ≠ 204 then
        { ret := false, retries := t, failures_inc := 1, posts_inc := 0,
          error_out := some ("HTTP " ++ toString c) }
      else
        { ret := true, retries := t, failures_inc := 0, posts_inc := 1,
          error_out := none }

/-- If the first completed exchange happens on attempt `attempt + k` (after k
transport failures) and k attempts remain allowed, the loop stops there having
counted exactly k retries. -/
theorem wlpLoop_first_completion (perform : Nat → PerformResult) :
    ∀ (k remaining attempt c : Nat), k ≤ remaining →
      (∀ j < k, perform (attempt + j) = PerformResult.transportErr) →
      perform (attempt + k) = PerformResult.completed c →
      wlpLoop perform attempt remaining = (PerformResult.completed c, k)
  | 0, remaining, attempt, c => by
    intro _ _ hk
    rw [Nat.add_zero] at hk
    cases remaining with
    | zero => unfold wlpLoop; rw [hk]
    | succ r => unfold wlpLoop; rw [hk]
  | k + 1, remaining, attempt, c => by
    intro hle herr hk
    have h0 : perform attempt = PerformResult.transportErr := by
      have := herr 0 (Nat.succ_pos k)
      rwa [Nat.add_zero] at this
    cases remaining with
    | zero => omega
    | succ r =>
        have ih := wlpLoop_first_completion perform k r (attempt + 1) c
          (by omega)
          (fun j hj => by
            have := herr (j + 1) (by omega)
            rwa [show attempt + (j + 1) = attempt + 1 + j by omega] at this)
          (by rwa [show attempt + 1 + k = attempt + (k + 1) by omega])
        unfold wlpLoop
        rw [h0, ih]

/-- If every allowed attempt fails at the transport level, the loop performs
them all and counts `remaining` retries. -/
theorem wlpLoop_all_err (perform : Nat → PerformResult) :
    ∀ (remaining attempt : Nat),
      (∀ j ≤ remaining, perform (attempt + j) = PerformResult.transportErr) →
      wlpLoop perform attempt remaining = (PerformResult.transportErr, remaining)
  | 0, attempt => by
    intro herr
    have h0 := herr 0 (Nat.zero_le 0)
    rw [Nat.add_zero] at h0
    unfold wlpLoop
    rw [h0]
  | remaining + 1, attempt => by
    intro herr
    have h0 : perform attempt = PerformResult.transportErr := by
      have := herr 0 (Nat.zero_le _)
      rwa [Nat.add_zero] at this
    have ih := wlpLoop_all_err perform remaining (attempt + 1)
      (fun j hj => by
        have := herr (j + 1) (by omega)
        rwa [show attempt + (j + 1) = attempt + 1 + j by omega] at this)
    unfold wlpLoop
    rw [h0, ih]

/-- C8: write_lp retries only on transport failures.  If the first completed
exchange happens on attempt k ≤ max_retries (after k transport failures), the
retry counter increments exactly k times and the completed exchange is never
retried regardless of its status; the call returns true exactly when that
status is 204, incrementing the post counter, while any other status
increments the failure counter once and populates the error output.  If every
attempt up to max_retries fails at the transport level, the retry counter
reaches exactly max_retries and the call returns false with one failure
increment and a populated error output.  Every false return carries one
failure increment and a populated error output. -/
theorem c8_write_lp_retry_policy (perform : Nat → PerformResult)
    (max_retries k c : Nat) :
    (k ≤ max_retries →
      (∀ j < k, perform j = PerformResult.transportErr) →
      perform k = PerformResult.completed c →
      (write_lp perform max_retries).retries = k
      ∧ ((write_lp perform max_retries).ret = true ↔ c = 204)
      ∧ (c = 204 →
          (write_lp perform max_retries).failures_inc = 0
          ∧ (write_lp perform max_retries).posts_inc = 1
          ∧ (write_lp perform max_retries).error_out = none)
      ∧ (c ≠ 204 →
          (write_lp perform max_retries).failures_inc = 1
          ∧ (write_lp perform max_retries).posts_inc = 0
          ∧ (write_lp perform max_retries).error_out
              = some ("HTTP " ++ toString c)))
    ∧ ((∀ j ≤ max_retries, perform j = PerformResult.transportErr) →
      (write_lp perform max_retries).ret = false
      ∧ (write_lp perform max_retries).retries = max_retries
      ∧ (write_lp perform max_retries).failures_inc = 1
      ∧ (write_lp perform max_retries).error_out
          = some "curl transport error")
    ∧ ((write_lp perform max_retries).ret = false →
      (write_lp perform max_retries).failures_inc = 1
      ∧ (write_lp perform max_retries).error_out ≠ none) := by
  refine ⟨?_, ?_, ?_⟩
  · intro hle herr hk
    have hloop : wlpLoop perform 0 max_retries = (PerformResult.completed c, k) :=
      wlpLoop_first_completion perform k max_retries 0 c hle
        (fun j hj => by rw [Nat.zero_add]; exact herr j hj)
        (by rwa [Nat.zero_add])
    by_cases hc : c = 204
    · have hw : write_lp perform max_retries
          = { ret := true, retries := k, failures_inc := 0, posts_inc := 1,
              error_out := none } := by
        unfold write_lp
        rw [hloop]
        simp [hc]
      rw [hw]
      refine ⟨rfl, by simp [hc], fun _ => ⟨rfl, rfl, rfl⟩, fun hcne => absurd hc hcne⟩
    · have hw : write_lp perform max_retries
          = { ret := false, retries := k, failures_inc := 1, posts_inc := 0,
              error_out := some ("HTTP " ++ toString c) } := by
        unfold write_lp
        rw [hloop]
        simp [hc]
      rw [hw]
      refine ⟨rfl, by simp [hc], fun hceq => absurd hceq hc,
        fun _ => ⟨rfl, rfl, rfl⟩⟩
  · intro herr
    have hloop : wlpLoop perform 0 max_retries
        = (PerformResult.transportErr, max_retries) :=
      wlpLoop_all_err perform max_retries 0
        (fun j hj => by rw [Nat.zero_add]; exact herr j hj)
    have hw : write_lp perform max_retries
        = { ret := false, retries := max_retries, failures_inc := 1,
            posts_inc := 0, error_out := some "curl transport error" } := by
      unfold write_lp
      rw [hloop]
    rw [hw]
    exact ⟨rfl, rfl, rfl, rfl⟩
  · intro hfalse
    unfold write_lp at hfalse ⊢
    rcases hres : wlpLoop perform 0 max_retries with ⟨res, t⟩
    cases res with
    | transportErr => exact ⟨rfl, by simp⟩
    | completed c2 =>
        rw [hres] at hfalse
        by_cases hc2 : c2 = 204
        · simp [hc2] at hfalse
        · simp [hc2] at hfalse ⊢

/-- Transport oracle failing once, then completing with 204. -/
def perform_ok : Nat → PerformResult :=
  fun n => if n = 0 then PerformResult.transportErr
           else PerformResult.completed 204

/-- Transport oracle that always fails. -/
def perform_bad : Nat → PerformResult := fun _ => PerformResult.transportErr

/-- C8 witness: one transport failure then a 204 gives one retry and success;
all-failing transport with max_retries = 2 gives two retries and a failure. -/
theorem c8_write_lp_retry_policy_witness :
    (write_lp perform_ok 3).retries = 1
    ∧ ((write_lp perform_ok 3).ret = true ↔ (204 : Nat) = 204)
    ∧ (write_lp perform_bad 2).ret = false
    ∧ (write_lp perform_bad 2).retries = 2
    ∧ (write_lp perform_bad 2).failures_inc = 1 :=
  ⟨((c8_write_lp_retry_policy perform_ok 3 1 204).1 (by decide)
      (by decide) (by decide)).1,
    ((c8_write_lp_retry_policy perform_ok 3 1 204).1 (by decide)
      (by decide) (by decide)).2.1,
    ((c8_write_lp_retry_policy perform_bad 2 0 0).2.1 (by decide)).1,
    ((c8_write_lp_retry_policy perform_bad 2 0 0).2.1 (by decide)).2.1,
    ((c8_write_lp_retry_policy perform_bad 2 0 0).2.1 (by decide)).2.2.1⟩

-- ===========================================================================
-- services/spsc_ring_service.hpp, mpsc_ring_service.hpp : ring queues
-- ===========================================================================

/-- One pass of the rounding loop body p <<= 1 on a size_t accumulator:
doubling wraps at 2^64. -/
def round_up_pow2_step (p : Nat) : Nat := p * 2 % 2 ^ 64

/-- The rounding loop p = 1; while (p < n) p <<= 1 of the ring-queue
constructors (spsc_ring_service.hpp lines 66-68 and the identical copy in
mpsc_ring_service.hpp), executed for at most `fuel` iterations on the
wrapping size_t accumulator.  `none` means the loop was still running when
the iteration budget ran out; the lemmas below show that with the budget used
by round_up_pow2 this happens exactly when the source loop never terminates
(the accumulator reaches 2^63, wraps to 0, and loops forever). -/
def round_up_pow2_go (n : Nat) : Nat → Nat → Option Nat
  | 0, _ => none
  | fuel + 1, p =>
      if p < n then round_up_pow2_go n fuel (round_up_pow2_step p)
      else some p

/-- round_up_pow2, with an iteration budget of 65: from p = 1 the accumulator
takes the values 2^0, ..., 2^63, 0, 0, ... in order, so every terminating run
exits within 65 iterations and `none` coincides with true divergence of the
source loop (RoundUpLoopTerminates below fails). -/
def round_up_pow2 (n : Nat) : Option Nat := round_up_pow2_go n 65 1

/-- Termination of the source's rounding loop while (p < n) p <<= 1 (size_t
wrap included) when started from accumulator value p. -/
inductive RoundUpLoopTerminates (n : Nat) : Nat → Prop where
  | exit : ∀ p, ¬ p < n → RoundUpLoopTerminates n p
  | step : ∀ p, p < n → RoundUpLoopTerminates n (round_up_pow2_step p) →
      RoundUpLoopTerminates n p

/-- The fuel-indexed execution is sound for the termination predicate: a run
that exits within its budget is a terminating run of the source loop. -/
theorem round_up_pow2_go_some_terminates (n : Nat) :
    ∀ (fuel p c : Nat), round_up_pow2_go n fuel p = some c →
      RoundUpLoopTerminates n p
  | 0, p, c => by intro h; exact absurd h (by simp [round_up_pow2_go])
  | fuel + 1, p, c => by
    intro h
    unfold round_up_pow2_go at h
    by_cases hlt : p < n
    · rw [if_pos hlt] at h
      exact RoundUpLoopTerminates.step p hlt
        (round_up_pow2_go_some_terminates n fuel (round_up_pow2_step p) c h)
    · exact RoundUpLoopTerminates.exit p hlt

/-- For a requested capacity above 2^63 the rounding loop never terminates:
the accumulator stays in {2^0, ..., 2^63, 0}, every such value is below n
(so the loop guard always holds), and the set is closed under the wrapping
doubling (2^63 wraps to 0, which is a fixed point). -/
theorem roundup_diverges (n : Nat) (hn : 2 ^ 63 < n) :
    ∀ p, RoundUpLoopTerminates n p →
      (p = 0 ∨ ∃ k, k ≤ 63 ∧ p = 2 ^ k) → False := by
  intro p h
  induction h with
  | exit q hex =>
      intro hq
      apply hex
      rcases hq with hq0 | ⟨k, hk, hqk⟩
      · omega
      · have : (2 : Nat) ^ k ≤ 2 ^ 63 := Nat.pow_le_pow_right (by omega) hk
        omega
  | step q hlt hterm ih =>
      intro hq
      apply ih
      rcases hq with hq0 | ⟨k, hk, hqk⟩
      · left
        rw [hq0]
        rfl
      · by_cases hk63 : k = 63
        · left
          rw [hqk, hk63]
          unfold round_up_pow2_step
          rw [show (2 : Nat) ^ 63 * 2 = 2 ^ 64 by rw [← pow_succ]]
          exact Nat.mod_self (2 ^ 64)
        · right
          refine ⟨k + 1, by omega, ?_⟩
          rw [hqk]
          unfold round_up_pow2_step
          rw [show (2 : Nat) ^ k * 2 = 2 ^ (k + 1) by rw [← pow_succ]]
          exact Nat.mod_eq_of_lt
            (Nat.pow_lt_pow_right (by omega) (by omega))

/-- Under a request of at most 2^63 the accumulator never wraps, and the loop
exits with the least power of two at least n, within fuel + 1 iterations
whenever n ≤ p * 2 ^ fuel. -/
theorem round_up_pow2_go_spec (n : Nat) (hn : n ≤ 2 ^ 63) :
    ∀ (fuel p i : Nat), p = 2 ^ i → n ≤ p * 2 ^ fuel →
      ∃ c, round_up_pow2_go n (fuel + 1) p = some c
        ∧ (∃ j, c = 2 ^ j) ∧ n ≤ c
        ∧ (∀ m j2, m = 2 ^ j2 → n ≤ m → p ≤ m → c ≤ m)
  | 0, p, i => by
    intro hp hb
    rw [pow_zero, Nat.mul_one] at hb
    have hnlt : ¬ p < n := by omega
    refine ⟨p, ?_, ⟨i, hp⟩, hb, fun m j2 _ _ hpm => hpm⟩
    unfold round_up_pow2_go
    rw [if_neg hnlt]
  | fuel + 1, p, i => by
    intro hp hb
    by_cases hlt : p < n
    · have hi63 : i < 63 := by
        have h1 : (2 : Nat) ^ i < 2 ^ 63 := by omega
        exact (Nat.pow_lt_pow_iff_right (by omega)).mp h1
      have hstep : round_up_pow2_step p = p * 2 := by
        unfold round_up_pow2_step
        apply Nat.mod_eq_of_lt
        have : p * 2 = 2 ^ (i + 1) := by rw [hp, pow_succ]
        rw [this]
        exact Nat.pow_lt_pow_right (by omega) (by omega)
      have hp2 : p * 2 = 2 ^ (i + 1) := by rw [hp, pow_succ]
      have hb2 : n ≤ p * 2 * 2 ^ fuel := by
        rw [Nat.mul_assoc, ← pow_succ']
        exact hb
      have ih := round_up_pow2_go_spec n hn fuel (p * 2) (i + 1) hp2 hb2
      rcases ih with ⟨c, hc, hcp, hcn, hcmin⟩
      refine ⟨c, ?_, hcp, hcn, ?_⟩
      · unfold round_up_pow2_go
        rw [if_pos hlt, hstep]
        exact hc
      · intro m j2 hm hnm hpm
        have hplt : p < m := Nat.lt_of_lt_of_le hlt hnm
        have hij : i < j2 := by
          rw [hp, hm] at hplt
          exact (Nat.pow_lt_pow_iff_right (by omega)).mp hplt
        have hp2m : p * 2 ≤ m := by
          rw [hp2, hm]
          exact Nat.pow_le_pow_right (by omega) (by omega)
        exact hcmin m j2 hm hnm hp2m
    · refine ⟨p, ?_, ⟨i, hp⟩, by omega, fun m j2 _ _ hpm => hpm⟩
      unfold round_up_pow2_go
      rw [if_neg hlt]
  termination_by fuel => fuel

/-- For every requested capacity up to 2^63, round_up_pow2 produces the least
power of two that is at least the request (and 1 for a request of 0). -/
theorem round_up_pow2_spec (n : Nat) (hn : n ≤ 2 ^ 63) :
    ∃ c, round_up_pow2 n = some c
      ∧ (∃ j, c = 2 ^ j) ∧ n ≤ c
      ∧ (∀ m j, m = 2 ^ j → n ≤ m → c ≤ m) := by
  have h := round_up_pow2_go_spec n hn 64 1 0 (by rw [pow_zero])
    (by rw [Nat.one_mul]; omega)
  rcases h with ⟨c, hc, hcp, hcn, hcmin⟩
  exact ⟨c, hc, hcp, hcn, fun m j hm hnm =>
    hcmin m j hm hnm (hm ▸ Nat.one_le_two_pow)⟩

/-- State of an SPSCQueue<T> (spsc_ring_service.hpp).  head and tail are the
size_t indices (kept reduced mod 2^64), items and slots the two counting
semaphores. -/
structure SPSCState (T : Type) where
  capacity : Nat
  mask : Nat
  buffer : List T
  head : Nat
  tail : Nat
  items : Nat
  slots : Nat
deriving DecidableEq

/-- SPSCQueue constructor: capacity rounded up to a power of two, mask =
capacity - 1, default-constructed buffer, empty (items = 0), all slots free.
`none` models the constructor never returning because the rounding loop
diverges. -/
def mkSPSC (T : Type) [Inhabited T] (n : Nat) : Option (SPSCState T) :=
  (round_up_pow2 n).map fun c =>
    { capacity := c
      mask := c - 1
      buffer := List.replicate c default
      head := 0
      tail := 0
      items := 0
      slots := c }

/-- SPSCQueue::try_push: non-blocking slot acquisition, write at tail & mask,
publish one item. -/
def SPSCState.try_push (s : SPSCState T) (x : T) : Bool × SPSCState T :=
  if s.slots = 0 then (false, s)
  else
    (true,
      { s with
        buffer := s.buffer.set (s.tail &&& s.mask) x
        tail := (s.tail + 1) % 2 ^ 64
        items := s.items + 1
        slots := s.slots - 1 })

/-- SPSCQueue::try_pop: non-blocking item acquisition, read at head & mask,
free one slot. -/
def SPSCState.try_pop [Inhabited T] (s : SPSCState T) :
    Option T × SPSCState T :=
  if s.items = 0 then (none, s)
  else
    (some (s.buffer.getD (s.head &&& s.mask) default),
      { s with
        head := (s.head + 1) % 2 ^ 64
        items := s.items - 1
        slots := s.slots + 1 })

/-- SPSCQueue::size: tail - head on size_t (wrap-safe unsigned difference). -/
def SPSCState.size (s : SPSCState T) : Nat :=
  (s.tail + 2 ^ 64 - s.head) % 2 ^ 64

/-- State of an MPSCQueue<T> (mpsc_ring_service.hpp); identical layout, the
tail is advanced by fetch_add in the source but the sequential semantics of
one operation coincide. -/
structure MPSCState (T : Type) where
  capacity : Nat
  mask : Nat
  buffer : List T
  head : Nat
  tail : Nat
  items : Nat
  slots : Nat
deriving DecidableEq

/-- MPSCQueue constructor. -/
def mkMPSC (T : Type) [Inhabited T] (n : Nat) : Option (MPSCState T) :=
  (round_up_pow2 n).map fun c =>
    { capacity := c
      mask := c - 1
      buffer := List.replicate c default
      head := 0
      tail := 0
      items := 0
      slots := c }

/-- MPSCQueue::try_push (tail reserved via fetch_add). -/
def MPSCState.try_push (s : MPSCState T) (x : T) : Bool × MPSCState T :=
  if s.slots = 0 then (false, s)
  else
    (true,
      { s with
        buffer := s.buffer.set (s.tail &&& s.mask) x
        tail := (s.tail + 1) % 2 ^ 64
        items := s.items + 1
        slots := s.slots - 1 })

/-- MPSCQueue::try_pop. -/
def MPSCState.try_pop [Inhabited T] (s : MPSCState T) :
    Option T × MPSCState T :=
  if s.items = 0 then (none, s)
  else
    (some (s.buffer.getD (s.head &&& s.mask) default),
      { s with
        head := (s.head + 1) % 2 ^ 64
        items := s.items - 1
        slots := s.slots + 1 })

/-- MPSCQueue::size. -/
def MPSCState.size (s : MPSCState T) : Nat :=
  (s.tail + 2 ^ 64 - s.head) % 2 ^ 64

/-- C10 counterexample: at the requested size_t capacity 2^63 + 1 the
constructors' rounding loop never terminates — the accumulator wraps to 0 at
2^63 and the guard p < n holds forever — so no queue and no capacity are ever
produced, refuting the claim's universal statement over requested
capacities. -/
theorem c10_ring_construction_counterexample :
    ¬ RoundUpLoopTerminates (2 ^ 63 + 1) 1
    ∧ mkSPSC Nat (2 ^ 63 + 1) = none
    ∧ mkMPSC Nat (2 ^ 63 + 1) = none :=
  ⟨fun h => roundup_diverges (2 ^ 63 + 1) (by omega) 1 h
      (Or.inr ⟨0, by omega, rfl⟩),
    by decide, by decide⟩

/-- C10 (amended): for every requested capacity n ≤ 2^63, a freshly
constructed SPSCQueue or MPSCQueue has capacity equal to the least power of
two greater than or equal to n (1 for n = 0, never 0), size 0, a failing
try_pop and a succeeding try_push; for any larger request the constructors'
rounding loop never terminates, so no queue is constructed. -/
theorem c10_ring_construction (T : Type) [Inhabited T] (n : Nat) (x : T) :
    (n ≤ 2 ^ 63 →
      (∃ s : SPSCState T, mkSPSC T n = some s
        ∧ (∃ j, s.capacity = 2 ^ j) ∧ n ≤ s.capacity
        ∧ (∀ k j, k = 2 ^ j → n ≤ k → s.capacity ≤ k)
        ∧ s.capacity ≠ 0 ∧ (n = 0 → s.capacity = 1)
        ∧ s.size = 0 ∧ s.try_pop.1 = none ∧ (s.try_push x).1 = true)
      ∧ (∃ m : MPSCState T, mkMPSC T n = some m
        ∧ (∃ j, m.capacity = 2 ^ j) ∧ n ≤ m.capacity
        ∧ (∀ k j, k = 2 ^ j → n ≤ k → m.capacity ≤ k)
        ∧ m.capacity ≠ 0 ∧ (n = 0 → m.capacity = 1)
        ∧ m.size = 0 ∧ m.try_pop.1 = none ∧ (m.try_push x).1 = true))
    ∧ (2 ^ 63 < n → ¬ RoundUpLoopTerminates n 1) := by
  constructor
  · intro hn
    rcases round_up_pow2_spec n hn with ⟨c, hc, ⟨j, hj⟩, hcn, hcmin⟩
    have hcpos : c ≠ 0 := by
      rw [hj]
      exact Nat.pos_iff_ne_zero.mp (Nat.pos_pow_of_pos j (by omega))
    have hc1 : n = 0 → c = 1 := by
      intro h0
      have h1 : c ≤ 1 := hcmin 1 0 (by rw [pow_zero]) (by omega)
      omega
    constructor
    · refine ⟨⟨c, c - 1, List.replicate c default, 0, 0, 0, c⟩,
        ?_, ⟨j, hj⟩, hcn, hcmin, hcpos, hc1, ?_, ?_, ?_⟩
      · unfold mkSPSC
        rw [hc]
        rfl
      · show ((0 : Nat) + 2 ^ 64 - 0) % 2 ^ 64 = 0
        simp
      · rfl
      · unfold SPSCState.try_push
        rw [if_neg hcpos]
    · refine ⟨⟨c, c - 1, List.replicate c default, 0, 0, 0, c⟩,
        ?_, ⟨j, hj⟩, hcn, hcmin, hcpos, hc1, ?_, ?_, ?_⟩
      · unfold mkMPSC
        rw [hc]
        rfl
      · show ((0 : Nat) + 2 ^ 64 - 0) % 2 ^ 64 = 0
        simp
      · rfl
      · unfold MPSCState.try_push
        rw [if_neg hcpos]
  · intro hn h
    exact roundup_diverges n hn 1 h (Or.inr ⟨0, by omega, rfl⟩)

/-- The capacity-8 SPSC state a request of 5 constructs. -/
def spsc5 : SPSCState Nat :=
  { capacity := 8, mask := 7, buffer := List.replicate 8 0,
    head := 0, tail := 0, items := 0, slots := 8 }

/-- The capacity-8 MPSC state a request of 5 constructs. -/
def mpsc5 : MPSCState Nat :=
  { capacity := 8, mask := 7, buffer := List.replicate 8 0,
    head := 0, tail := 0, items := 0, slots := 8 }

/-- C10 witness: requested capacity 5 rounds to 8; the fresh queue is empty,
pops fail and pushes succeed; and the 2^63 + 1 request diverges. -/
theorem c10_ring_construction_witness :
    (5 : Nat) ≤ 2 ^ 63
    ∧ mkSPSC Nat 5 = some spsc5
    ∧ 5 ≤ spsc5.capacity ∧ spsc5.capacity ≤ 8
    ∧ spsc5.size = 0 ∧ spsc5.try_pop.1 = none ∧ (spsc5.try_push 42).1 = true
    ∧ mkMPSC Nat 5 = some mpsc5 ∧ mpsc5.try_pop.1 = none
    ∧ ¬ RoundUpLoopTerminates (2 ^ 63 + 1) 1 := by
  have h5 : (5 : Nat) ≤ 2 ^ 63 := by
    have : (5 : Nat) ≤ 2 ^ 3 := by omega
    exact this.trans (Nat.pow_le_pow_right (by omega) (by omega))
  have hdiv := (c10_ring_construction Nat (2 ^ 63 + 1) 0).2 (by omega)
  rcases (c10_ring_construction Nat 5 42).1 h5 with
    ⟨⟨s, hs, _, hle, hmin, _, _, hsz, hpop, hpush⟩,
      ⟨m, hm, _, _, _, _, _, _, hmpop, _⟩⟩
  have hs5 : s = spsc5 := by
    have hd : mkSPSC Nat 5 = some spsc5 := by decide
    exact Option.some.inj (hs.symm.trans hd)
  have hm5 : m = mpsc5 := by
    have hd : mkMPSC Nat 5 = some mpsc5 := by decide
    exact Option.some.inj (hm.symm.trans hd)
  subst hs5
  subst hm5
  exact ⟨h5, hs, hle, hmin 8 3 (by norm_num) (by omega), hsz, hpop, hpush,
    hm, hmpop, hdiv⟩

-- ===========================================================================
-- influxdb.hpp : line formatting (InfluxDBTask::append_voltage_line_)
-- ===========================================================================

/-- Correctly rounded division a / b with ties to even (b > 0). -/
def round_half_even_div (a b : Nat) : Nat :=
  let q := a / b
  let r := a % b
  if b < 2 * r then q + 1
  else if 2 * r < b then q
  else if q % 2 = 0 then q else q + 1

/-- Left-pad a digit string with zeros to the given length. -/
def pad_zeros (s : String) (len : Nat) : String :=
  String.mk (List.replicate (len - s.length) '0') ++ s

/-- Fixed-point decimal rendering of a binary32 pattern at the given
precision, as produced by std::ostringstream with std::ios::fixed (glibc
semantics: sign taken from the sign bit, magnitude correctly rounded to
`prec` decimals with ties to even, "inf"/"nan" for non-finite values). -/
def fmt_fixed (prec : Nat) (bits : Nat) : String :=
  let sign := if 2 ^ 31 ≤ bits % 2 ^ 32 then "-" else ""
  if f32_isfinite bits then
    let n := round_half_even_div ((f32_val149 bits).natAbs * 10 ^ prec)
      (2 ^ 149)
    let ip := n / 10 ^ prec
    let fp := n % 10 ^ prec
    if prec = 0 then sign ++ toString ip
    else sign ++ toString ip ++ "." ++ pad_zeros (toString fp) prec
  else if f32_frac bits = 0 then sign ++ "inf"
  else sign ++ "nan"

/-- Character loop of escape_measurement_: backslash-prefix every space,
comma and equals sign. -/
def escape_chars : List Char → List Char
  | [] => []
  | c :: rest =>
      if c = ' ' ∨ c = ',' ∨ c = '=' then '\\' :: c :: escape_chars rest
      else c :: escape_chars rest

/-- InfluxDBTask::escape_measurement_ (influxdb.hpp lines 176-187). -/
def escape_measurement (m : String) : String :=
  String.mk (escape_chars m.data)

/-- The InfluxDBConfig fields the consumer's line formatter reads. -/
structure InfluxDBConfig where
  voltage1_table : String
  voltage2_table : String
  temperature_table : String
  voltage_precision : Nat
  temperature_precision : Nat

/-- Default configuration values (influxdb.hpp lines 27-49). -/
def cfg_default : InfluxDBConfig :=
  { voltage1_table := "voltage1"
    voltage2_table := "voltage2"
    temperature_table := "temperature"
    voltage_precision := 6
    temperature_precision := 3 }

/-- kVoltageChannelsPerDevice (influxdb.hpp line 154). -/
def kVoltageChannelsPerDevice : Nat := 8

/-- InfluxDBTask::append_voltage_line_ (influxdb.hpp lines 301-340): appends
one line to the buffer, increments the line count, and reports the new buffer
size. -/
def append_voltage_line (cfg : InfluxDBConfig) (b : VoltageBatch)
    (buffer : String) (lines bytes : Nat) : String × Nat × Nat :=
  let ts_ns : Int := b.ts.timestamp
  let table : String :=
    if b.device_id = 1 then cfg.voltage1_table
    else if b.device_id = 2 then cfg.voltage2_table
    else cfg.voltage1_table
  let buf1 := buffer ++ escape_measurement table ++ " "
  let n := if kChannelCount < kVoltageChannelsPerDevice then kChannelCount
           else kVoltageChannelsPerDevice
  let buf2 := ((List.finRange 16).take n).foldl
    (fun buf i =>
      let buf := if i.val > 0 then buf ++ "," else buf
      buf ++ "ch" ++ toString i.val ++ "="
        ++ fmt_fixed cfg.voltage_precision (b.voltages i))
    buf1
  let buf3 := buf2 ++ " " ++ toString ts_ns ++ "\n"
  (buf3, lines + 1, buf3.length)

/-- Comma-joining of a list of field strings. -/
def join_comma : List String → String
  | [] => ""
  | [x] => x
  | x :: y :: rest => x ++ "," ++ join_comma (y :: rest)

/-- Modelled from the spec: one voltage line is the escaped measurement name,
a space, the fields ch0..ch7 (only the first 8 of the 16 channel slots, each
fixed-point at the configured voltage precision) joined by commas, a space,
the nanosecond timestamp, and a newline. -/
def spec_voltage_line (cfg : InfluxDBConfig) (b : VoltageBatch)
    (table : String) : String :=
  escape_measurement table ++ " "
    ++ join_comma (((List.finRange 16).take 8).map fun i =>
        "ch" ++ toString i.val ++ "="
          ++ fmt_fixed cfg.voltage_precision (b.voltages i))
    ++ " " ++ toString b.ts.timestamp ++ "\n"

/-- C9: the formatter appends exactly one line of the spec's shape to the
buffer — measurement selected by device identifier (1 to the first voltage
table, 2 to the second, anything else falling back to the first), a space,
the fields ch0..ch7 only (first 8 of the 16 slots, fixed-point at the
configured precision, comma-joined), a space, the nanosecond timestamp, a
newline — and increments the line count by one, reporting the new buffer
size. -/
theorem c9_voltage_line_format (cfg : InfluxDBConfig) (b : VoltageBatch)
    (buffer : String) (lines bytes : Nat) :
    (b.device_id = 1 →
      append_voltage_line cfg b buffer lines bytes
        = (buffer ++ spec_voltage_line cfg b cfg.voltage1_table, lines + 1,
            (buffer ++ spec_voltage_line cfg b cfg.voltage1_table).length))
    ∧ (b.device_id = 2 →
      append_voltage_line cfg b buffer lines bytes
        = (buffer ++ spec_voltage_line cfg b cfg.voltage2_table, lines + 1,
            (buffer ++ spec_voltage_line cfg b cfg.voltage2_table).length))
    ∧ (b.device_id ≠ 1 → b.device_id ≠ 2 →
      append_voltage_line cfg b buffer lines bytes
        = (buffer ++ spec_voltage_line cfg b cfg.voltage1_table, lines + 1,
            (buffer ++ spec_voltage_line cfg b cfg.voltage1_table).length)) := by
  have hl : (List.finRange 16).take 8
      = [(⟨0, by omega⟩ : Fin 16), ⟨1, by omega⟩, ⟨2, by omega⟩,
          ⟨3, by omega⟩, ⟨4, by omega⟩, ⟨5, by omega⟩, ⟨6, by omega⟩,
          ⟨7, by omega⟩] := by decide
  refine ⟨?_, ?_, ?_⟩
  · intro h1
    unfold append_voltage_line spec_voltage_line
    rw [h1]
    simp [hl, kChannelCount, kVoltageChannelsPerDevice, join_comma,
      String.append_assoc, show ((3 : Fin 16) : Nat) = 3 from rfl,
      show ((4 : Fin 16) : Nat) = 4 from rfl,
      show ((5 : Fin 16) : Nat) = 5 from rfl,
      show ((6 : Fin 16) : Nat) = 6 from rfl,
      show ((7 : Fin 16) : Nat) = 7 from rfl]
  · intro h2
    unfold append_voltage_line spec_voltage_line
    rw [h2]
    simp [hl, kChannelCount, kVoltageChannelsPerDevice, join_comma,
      String.append_assoc, show ((3 : Fin 16) : Nat) = 3 from rfl,
      show ((4 : Fin 16) : Nat) = 4 from rfl,
      show ((5 : Fin 16) : Nat) = 5 from rfl,
      show ((6 : Fin 16) : Nat) = 6 from rfl,
      show ((7 : Fin 16) : Nat) = 7 from rfl]
  · intro h1 h2
    unfold append_voltage_line spec_voltage_line
    rw [if_neg h1, if_neg h2]
    simp [hl, kChannelCount, kVoltageChannelsPerDevice, join_comma,
      String.append_assoc, show ((3 : Fin 16) : Nat) = 3 from rfl,
      show ((4 : Fin 16) : Nat) = 4 from rfl,
      show ((5 : Fin 16) : Nat) = 5 from rfl,
      show ((6 : Fin 16) : Nat) = 6 from rfl,
      show ((7 : Fin 16) : Nat) = 7 from rfl]

/-- The end-to-end example batch: device 1, all 16 channels holding the 3.3f
pattern, timestamp at Unix nanosecond 1700000000000000000. -/
def vb_ex : VoltageBatch :=
  { ts := { device_epoch := 0, subseconds_ms := 0,
            timestamp := 1700000000000000000, valid := true }
    voltages := fun _ => 0x40533333
    seq := 0
    flags := 0
    device_id := 1 }

/-- C9 witness: the example batch formats to exactly the expected line at the
default precision, verifying the 8-of-16 truncation and fixed-point output. -/
theorem c9_voltage_line_format_witness :
    vb_ex.device_id = 1
    ∧ append_voltage_line cfg_default vb_ex "" 0 0
        = ("" ++ spec_voltage_line cfg_default vb_ex cfg_default.voltage1_table,
            0 + 1,
            ("" ++ spec_voltage_line cfg_default vb_ex
              cfg_default.voltage1_table).length)
    ∧ spec_voltage_line cfg_default vb_ex cfg_default.voltage1_table
        = "voltage1 ch0=3.300000,ch1=3.300000,ch2=3.300000,ch3=3.300000,ch4=3.300000,ch5=3.300000,ch6=3.300000,ch7=3.300000 1700000000000000000\n" :=
  ⟨rfl, (c9_voltage_line_format cfg_default vb_ex "" 0 0).1 rfl, by decide⟩
